import Mathlib

/-!
Verification of the page-replacement engine of this repository: the CLOCK
replacer (`src/buffer/clock_replacer.cpp`) and the ARC replacer
(`src/buffer/arc_replacer.cpp`).  The C++ classes are shallowly embedded as
Lean structures and pure state-passing functions; `std::vector<bool>` becomes
a `List Bool` with total indexing helpers, the `std::list`s become `List Nat`
(front = MRU end), and the `std::unordered_map`s become association lists.
`size_t` arithmetic is modelled exactly: unguarded `++`/`--`/`+=`/`-=` are
arithmetic modulo 2^64.
-/

/-- Number of values of the C++ type `size_t` (2 to the 64th power). -/
def SZ : Nat := 18446744073709551616

/-- Addition of `size_t` values (wraps modulo 2^64). -/
def add64 (a b : Nat) : Nat := (a + b) % SZ

/-- Subtraction of `size_t` values (wraps modulo 2^64). -/
def sub64 (a b : Nat) : Nat := (a + (SZ - b % SZ)) % SZ

theorem add64_small (a b : Nat) (h : a + b < SZ) : add64 a b = a + b := by
  simp [add64, Nat.mod_eq_of_lt h]

theorem sub64_small (a b : Nat) (hba : b ≤ a) (ha : a < SZ) : sub64 a b = a - b := by
  have hb : b < SZ := Nat.lt_of_le_of_lt hba ha
  simp only [sub64, Nat.mod_eq_of_lt hb]
  have h1 : a + (SZ - b) = SZ + (a - b) := by omega
  rw [h1, Nat.add_mod_left]
  exact Nat.mod_eq_of_lt (by omega)

/-- Reading `v[i]` on a `std::vector<bool>`; total, returning `false` out of
range (the C++ code only indexes in range). -/
def getBit : List Bool → Nat → Bool
  | [], _ => false
  | x :: _, 0 => x
  | _ :: t, i + 1 => getBit t i

/-- Writing `v[i] = b` on a `std::vector<bool>`; no-op out of range. -/
def setBit : List Bool → Nat → Bool → List Bool
  | [], _, _ => []
  | _ :: t, 0, v => v :: t
  | x :: t, i + 1, v => x :: setBit t i v

/-- Number of `true` bits in a bit vector. -/
def popcount : List Bool → Nat
  | [] => 0
  | x :: t => (if x then 1 else 0) + popcount t

theorem length_setBit (l : List Bool) (i : Nat) (b : Bool) :
    (setBit l i b).length = l.length := by
  induction l generalizing i with
  | nil => rfl
  | cons x t ih =>
    cases i with
    | zero => rfl
    | succ j => simp [setBit, ih]

theorem getBit_true_lt (l : List Bool) (i : Nat) (h : getBit l i = true) :
    i < l.length := by
  induction l generalizing i with
  | nil => simp [getBit] at h
  | cons x t ih =>
    cases i with
    | zero => simp
    | succ j =>
      have := ih j h
      simp [List.length_cons]
      omega

theorem popcount_le (l : List Bool) : popcount l ≤ l.length := by
  induction l with
  | nil => simp [popcount]
  | cons x t ih =>
    simp only [popcount, List.length_cons]
    cases x <;> simp <;> omega

theorem popcount_setBit_false (l : List Bool) (i : Nat) (h : getBit l i = true) :
    popcount (setBit l i false) + 1 = popcount l := by
  induction l generalizing i with
  | nil => simp [getBit] at h
  | cons x t ih =>
    cases i with
    | zero =>
      simp [getBit] at h
      simp [setBit, popcount, h]
      omega
    | succ j =>
      have := ih j h
      simp only [setBit, popcount]
      omega

theorem popcount_pos (l : List Bool) (i : Nat) (h : getBit l i = true) :
    0 < popcount l := by
  have := popcount_setBit_false l i h
  omega

theorem popcount_setBit_true (l : List Bool) (i : Nat) (h : getBit l i = false)
    (hi : i < l.length) : popcount (setBit l i true) = popcount l + 1 := by
  induction l generalizing i with
  | nil => simp at hi
  | cons x t ih =>
    cases i with
    | zero =>
      simp [getBit] at h
      simp only [setBit, popcount, h]
      simp
      omega
    | succ j =>
      have hj : j < t.length := by simp at hi; omega
      have := ih j h hj
      simp only [setBit, popcount]
      omega

theorem popcount_lt_of_getBit_false (l : List Bool) (i : Nat)
    (h : getBit l i = false) (hi : i < l.length) : popcount l < l.length := by
  have h1 := popcount_setBit_true l i h hi
  have h2 := popcount_le (setBit l i true)
  rw [length_setBit] at h2
  omega

theorem popcount_replicate_false (n : Nat) : popcount (List.replicate n false) = 0 := by
  induction n with
  | zero => rfl
  | succ m ih => simp [List.replicate, popcount, ih]

/-- State of `ClockReplacer` (`src/buffer/clock_replacer.cpp` and its header):
`num_pages_`, `clock_hand_`, `reference_bits_`, `pinned_` (despite the name,
`pinned_[i] == true` means frame `i` is tracked by the replacer), and
`current_size_`. -/
structure ClockReplacer where
  num_pages_ : Nat
  clock_hand_ : Nat
  reference_bits_ : List Bool
  pinned_ : List Bool
  current_size_ : Nat
deriving DecidableEq

/-- `ClockReplacer::ClockReplacer(size_t num_pages)`. -/
def ClockReplacer.init (num_pages : Nat) : ClockReplacer :=
  ⟨num_pages, 0, List.replicate num_pages false, List.replicate num_pages false, 0⟩

/-- Body of the `while (scanned < num_pages_)` loop of `ClockReplacer::Victim`;
the fuel argument is `num_pages_ - scanned`. -/
def ClockReplacer.VictimLoop : Nat → ClockReplacer → Option Nat × ClockReplacer
  | 0, s => (none, s)
  | fuel + 1, s =>
    if getBit s.pinned_ s.clock_hand_ = false then
      ClockReplacer.VictimLoop fuel
        { s with clock_hand_ := (s.clock_hand_ + 1) % s.num_pages_ }
    else if getBit s.reference_bits_ s.clock_hand_ = true then
      ClockReplacer.VictimLoop fuel
        { s with reference_bits_ := setBit s.reference_bits_ s.clock_hand_ false,
                 clock_hand_ := (s.clock_hand_ + 1) % s.num_pages_ }
    else
      (some s.clock_hand_,
        { s with pinned_ := setBit s.pinned_ s.clock_hand_ false,
                 reference_bits_ := setBit s.reference_bits_ s.clock_hand_ false,
                 current_size_ := sub64 s.current_size_ 1,
                 clock_hand_ := (s.clock_hand_ + 1) % s.num_pages_ })

/-- `ClockReplacer::Victim(frame_id_t *frame_id)`: the returned `Option Nat`
is `some id` when the C++ function stores `id` and returns `true`, `none` when
it returns `false`. -/
def ClockReplacer.Victim (s : ClockReplacer) : Option Nat × ClockReplacer :=
  if s.current_size_ = 0 then (none, s)
  else ClockReplacer.VictimLoop s.num_pages_ s

/-- `ClockReplacer::Pin(frame_id_t frame_id)`. -/
def ClockReplacer.Pin (s : ClockReplacer) (frame_id : Int) : ClockReplacer :=
  if frame_id < 0 ∨ s.num_pages_ ≤ frame_id.toNat then s
  else if getBit s.pinned_ frame_id.toNat = true then
    { s with pinned_ := setBit s.pinned_ frame_id.toNat false,
             reference_bits_ := setBit s.reference_bits_ frame_id.toNat false,
             current_size_ :=
               if 0 < s.current_size_ then s.current_size_ - 1 else s.current_size_ }
  else s

/-- `ClockReplacer::Unpin(frame_id_t frame_id)`. -/
def ClockReplacer.Unpin (s : ClockReplacer) (frame_id : Int) : ClockReplacer :=
  if frame_id < 0 ∨ s.num_pages_ ≤ frame_id.toNat then s
  else if getBit s.pinned_ frame_id.toNat = true then s
  else
    { s with pinned_ := setBit s.pinned_ frame_id.toNat true,
             reference_bits_ := setBit s.reference_bits_ frame_id.toNat true,
             current_size_ := add64 s.current_size_ 1 }

/-- `ClockReplacer::Size()`. -/
def ClockReplacer.Size (s : ClockReplacer) : Nat := s.current_size_

/-- The CLOCK state invariant: the two bit vectors have length `num_pages_`,
`num_pages_` fits in a `size_t`, `current_size_` counts the tracked frames,
and the hand is in `[0, num_pages_)` whenever `num_pages_ > 0`. -/
def ClockInv (s : ClockReplacer) : Prop :=
  s.pinned_.length = s.num_pages_ ∧
  s.reference_bits_.length = s.num_pages_ ∧
  s.num_pages_ < SZ ∧
  s.current_size_ = popcount s.pinned_ ∧
  (s.num_pages_ = 0 ∨ s.clock_hand_ < s.num_pages_)

theorem victimLoop_inv (fuel : Nat) (s : ClockReplacer) (h : ClockInv s) :
    ClockInv (ClockReplacer.VictimLoop fuel s).2 := by
  induction fuel generalizing s with
  | zero => exact h
  | succ n ih =>
    obtain ⟨h1, h2, h3, h4, h5⟩ := h
    rw [ClockReplacer.VictimLoop]
    have hmod : s.num_pages_ = 0 ∨ (s.clock_hand_ + 1) % s.num_pages_ < s.num_pages_ := by
      rcases Nat.eq_zero_or_pos s.num_pages_ with hz | hz
      · exact Or.inl hz
      · exact Or.inr (Nat.mod_lt _ hz)
    by_cases hp : getBit s.pinned_ s.clock_hand_ = false
    · rw [if_pos hp]
      exact ih _ ⟨h1, h2, h3, h4, hmod⟩
    · rw [if_neg hp]
      have hptrue : getBit s.pinned_ s.clock_hand_ = true := by
        cases hgb : getBit s.pinned_ s.clock_hand_
        · exact absurd hgb hp
        · rfl
      by_cases hr : getBit s.reference_bits_ s.clock_hand_ = true
      · rw [if_pos hr]
        refine ih _ ⟨h1, ?_, h3, h4, hmod⟩
        rw [length_setBit]; exact h2
      · rw [if_neg hr]
        have hlt : s.clock_hand_ < s.pinned_.length := getBit_true_lt _ _ hptrue
        have hpc := popcount_setBit_false s.pinned_ s.clock_hand_ hptrue
        have hple := popcount_le s.pinned_
        refine ⟨?_, ?_, h3, ?_, hmod⟩
        · show (setBit s.pinned_ s.clock_hand_ false).length = s.num_pages_
          rw [length_setBit]; exact h1
        · show (setBit s.reference_bits_ s.clock_hand_ false).length = s.num_pages_
          rw [length_setBit]; exact h2
        · show sub64 s.current_size_ 1 = popcount (setBit s.pinned_ s.clock_hand_ false)
          have hpos : 0 < popcount s.pinned_ := by omega
          rw [h4, sub64_small _ _ (by omega) (by omega)]
          omega

theorem clockInv_init (n : Nat) (hn : n < SZ) : ClockInv (ClockReplacer.init n) := by
  refine ⟨by simp [ClockReplacer.init], by simp [ClockReplacer.init], hn, ?_, ?_⟩
  · simp [ClockReplacer.init, popcount_replicate_false]
  · rcases Nat.eq_zero_or_pos n with h | h
    · exact Or.inl h
    · exact Or.inr h

theorem clockInv_pin (s : ClockReplacer) (f : Int) (h : ClockInv s) :
    ClockInv (ClockReplacer.Pin s f) := by
  obtain ⟨h1, h2, h3, h4, h5⟩ := h
  rw [ClockReplacer.Pin]
  by_cases hb : f < 0 ∨ s.num_pages_ ≤ f.toNat
  · rw [if_pos hb]; exact ⟨h1, h2, h3, h4, h5⟩
  · rw [if_neg hb]
    by_cases hp : getBit s.pinned_ f.toNat = true
    · rw [if_pos hp]
      have hpc := popcount_setBit_false s.pinned_ f.toNat hp
      have hpos : 0 < popcount s.pinned_ := by omega
      refine ⟨?_, ?_, h3, ?_, h5⟩
      · show (setBit s.pinned_ f.toNat false).length = s.num_pages_
        rw [length_setBit]; exact h1
      · show (setBit s.reference_bits_ f.toNat false).length = s.num_pages_
        rw [length_setBit]; exact h2
      · show (if 0 < s.current_size_ then s.current_size_ - 1 else s.current_size_) =
            popcount (setBit s.pinned_ f.toNat false)
        rw [h4, if_pos hpos]
        omega
    · rw [if_neg hp]; exact ⟨h1, h2, h3, h4, h5⟩

theorem clockInv_unpin (s : ClockReplacer) (f : Int) (h : ClockInv s) :
    ClockInv (ClockReplacer.Unpin s f) := by
  obtain ⟨h1, h2, h3, h4, h5⟩ := h
  rw [ClockReplacer.Unpin]
  by_cases hb : f < 0 ∨ s.num_pages_ ≤ f.toNat
  · rw [if_pos hb]; exact ⟨h1, h2, h3, h4, h5⟩
  · rw [if_neg hb]
    by_cases hp : getBit s.pinned_ f.toNat = true
    · rw [if_pos hp]; exact ⟨h1, h2, h3, h4, h5⟩
    · rw [if_neg hp]
      have hpf : getBit s.pinned_ f.toNat = false := by
        cases hgb : getBit s.pinned_ f.toNat
        · rfl
        · exact absurd hgb hp
      have hflt : f.toNat < s.pinned_.length := by rw [h1]; omega
      have hpc := popcount_setBit_true s.pinned_ f.toNat hpf hflt
      have hplt := popcount_lt_of_getBit_false s.pinned_ f.toNat hpf hflt
      refine ⟨?_, ?_, h3, ?_, h5⟩
      · show (setBit s.pinned_ f.toNat true).length = s.num_pages_
        rw [length_setBit]; exact h1
      · show (setBit s.reference_bits_ f.toNat true).length = s.num_pages_
        rw [length_setBit]; exact h2
      · show add64 s.current_size_ 1 = popcount (setBit s.pinned_ f.toNat true)
        rw [h4, add64_small _ _ (by omega), hpc]

theorem clockInv_victim (s : ClockReplacer) (h : ClockInv s) :
    ClockInv (ClockReplacer.Victim s).2 := by
  rw [ClockReplacer.Victim]
  by_cases hz : s.current_size_ = 0
  · rw [if_pos hz]; exact h
  · rw [if_neg hz]; exact victimLoop_inv _ _ h

/-- Claim C3: the claim states that whenever `size > 0`, `Victim` returns a
frame within at most `2N` hand advancements (all-referenced states are cleared
in one rotation and a victim picked in the second).  The source
`src/src/buffer/clock_replacer.cpp` bounds its scan by `num_pages_` steps and
gives up: with `N = 1`, after `Unpin(0)` the single tracked frame has its
reference bit set, and one `Victim` call merely clears that bit and returns no
victim even though `current_size_ = 1 > 0`. -/
theorem clock_victim_gives_up :
    (ClockReplacer.Unpin (ClockReplacer.init 1) 0).current_size_ = 1 ∧
    (ClockReplacer.Victim (ClockReplacer.Unpin (ClockReplacer.init 1) 0)).1 = none := by
  constructor
  · decide
  · decide

/-- Claim C9 (amended): after construction and after every `Pin`, `Unpin` and
`Victim`, `current_size_` equals the popcount of the tracked bits and, when
`N > 0`, the hand lies in `[0, N)`; `Size()` returns `current_size_`.  (For
`N = 0` the interval `[0, N)` is empty while the hand is 0, so the hand bound
is guarded by `N > 0`.) -/
theorem clock_size_hand_invariant (n : Nat) (s : ClockReplacer) (f : Int) :
    (n < SZ → ClockInv (ClockReplacer.init n)) ∧
    (ClockInv s → ClockInv (ClockReplacer.Pin s f)) ∧
    (ClockInv s → ClockInv (ClockReplacer.Unpin s f)) ∧
    (ClockInv s → ClockInv (ClockReplacer.Victim s).2) ∧
    ClockReplacer.Size s = s.current_size_ :=
  ⟨fun hn => clockInv_init n hn,
   fun h => clockInv_pin s f h,
   fun h => clockInv_unpin s f h,
   fun h => clockInv_victim s h,
   rfl⟩

/-- Witness for C9 at `N = 2`: the invariant holds after construction and
after an `Unpin`. -/
theorem clock_size_hand_invariant_witness :
    ClockInv (ClockReplacer.init 2) ∧
    ClockInv (ClockReplacer.Unpin (ClockReplacer.init 2) 0) := by
  have h := clock_size_hand_invariant 2 (ClockReplacer.init 2) 0
  have h0 : ClockInv (ClockReplacer.init 2) := h.1 (by decide)
  exact ⟨h0, h.2.2.1 h0⟩

/-- Counterexample for C9 as stated: after constructing with `N = 0` the hand
is 0, which does not lie in the empty interval `[0, 0)`. -/
theorem clock_hand_zero_capacity :
    (ClockReplacer.init 0).num_pages_ = 0 ∧
    ¬ (ClockReplacer.init 0).clock_hand_ < (ClockReplacer.init 0).num_pages_ := by
  decide

/-!
ARC replacer (`src/buffer/arc_replacer.cpp`).  In the source, `mru_` is T1,
`mfu_` is T2, `mru_ghost_` is B1, `mfu_ghost_` is B2 (all `std::list`s with
front = MRU end), `alive_map_` maps frame ids of resident entries and
`ghost_map_` maps page ids of ghost entries to shared `FrameStatus` records,
`mru_target_size_` is the adaptive parameter p and `curr_size_` counts
evictable resident entries.  The header of the class is not among the sources;
the field set, the `size_t` type of the counters and the member initializers
are modelled from the spec (section 3.2: four lists, two indexes, p initially
0) and from the uses visible in `arc_replacer.cpp`.  Frame ids and page ids
are modelled as `Nat` (the code never branches on their sign).  The stable
list-iterator handles stored in `FrameStatus` (`list_iter_`, `ghost_iter_`)
are modelled implicitly: erasing through a stored iterator is modelled as
erasing the first occurrence of the key in the list, which is the occurrence
the iterator designates since a key occurs at most once in its list.
`std::runtime_error` throws are modelled by a `Bool` fatal flag paired with
the (unchanged) state; the undefined behaviour of `pop_back()` on an empty
list is modelled by returning `none`.
-/

/-- The four regions of `enum class ArcStatus`. -/
inductive ArcStatus
  | MRU
  | MFU
  | MRU_GHOST
  | MFU_GHOST
deriving DecidableEq

/-- The bookkeeping record `FrameStatus` (page id, frame id, evictable flag,
region); the iterator handles are modelled implicitly. -/
structure FrameStatus where
  page_id_ : Nat
  frame_id_ : Nat
  evictable_ : Bool
  arc_status_ : ArcStatus
deriving DecidableEq

/-- Lookup in an `std::unordered_map` modelled as an association list. -/
def alookup : List (Nat × FrameStatus) → Nat → Option FrameStatus
  | [], _ => none
  | (k, v) :: t, k' => if k = k' then some v else alookup t k'

/-- `map.erase(key)` on an association list. -/
def aerase : List (Nat × FrameStatus) → Nat → List (Nat × FrameStatus)
  | [], _ => []
  | (k, v) :: t, k' => if k = k' then aerase t k' else (k, v) :: aerase t k'

/-- `map[key] = value` (insert or overwrite) on an association list. -/
def ainsert (m : List (Nat × FrameStatus)) (k : Nat) (v : FrameStatus) :
    List (Nat × FrameStatus) :=
  (k, v) :: aerase m k

/-- Erase the first occurrence of a value from a `std::list` (the occurrence
a stored iterator designates, keys being unique per list). -/
def lerase : List Nat → Nat → List Nat
  | [], _ => []
  | x :: t, y => if x = y then t else x :: lerase t y

theorem alookup_aerase_self (m : List (Nat × FrameStatus)) (k : Nat) :
    alookup (aerase m k) k = none := by
  induction m with
  | nil => rfl
  | cons kv t ih =>
    obtain ⟨k', v⟩ := kv
    by_cases h : k' = k
    · simp only [aerase, if_pos h]; exact ih
    · simp only [aerase, if_neg h, alookup, if_neg h]; exact ih

theorem alookup_aerase_ne (m : List (Nat × FrameStatus)) (k k' : Nat) (h : k ≠ k') :
    alookup (aerase m k) k' = alookup m k' := by
  induction m with
  | nil => rfl
  | cons kv t ih =>
    obtain ⟨k0, v⟩ := kv
    by_cases h0 : k0 = k
    · subst h0
      simp only [aerase, if_pos rfl, alookup, if_neg h]
      exact ih
    · simp only [aerase, if_neg h0, alookup]
      by_cases h1 : k0 = k'
      · simp only [if_pos h1]
      · simp only [if_neg h1]; exact ih

theorem alookup_ainsert_self (m : List (Nat × FrameStatus)) (k : Nat) (v : FrameStatus) :
    alookup (ainsert m k v) k = some v := by
  simp [ainsert, alookup]

theorem alookup_ainsert_ne (m : List (Nat × FrameStatus)) (k k' : Nat) (v : FrameStatus)
    (h : k ≠ k') : alookup (ainsert m k v) k' = alookup m k' := by
  simp only [ainsert, alookup, if_neg h]
  exact alookup_aerase_ne m k k' h

theorem lerase_sublist (l : List Nat) (x : Nat) : List.Sublist (lerase l x) l := by
  induction l with
  | nil => exact List.Sublist.refl _
  | cons y t ih =>
    by_cases h : y = x
    · simp only [lerase, if_pos h]
      exact List.sublist_cons_self y t
    · simp only [lerase, if_neg h]
      exact List.Sublist.cons₂ y ih

/-- The replacer state: the private members of class `ArcReplacer`. -/
structure ArcReplacer where
  replacer_size_ : Nat
  mru_ : List Nat
  mfu_ : List Nat
  mru_ghost_ : List Nat
  mfu_ghost_ : List Nat
  alive_map_ : List (Nat × FrameStatus)
  ghost_map_ : List (Nat × FrameStatus)
  mru_target_size_ : Nat
  curr_size_ : Nat
deriving DecidableEq

/-- `ArcReplacer::ArcReplacer(size_t num_frames)`: empty lists and maps,
`mru_target_size_` and `curr_size_` zero. -/
def ArcReplacer.init (num_frames : Nat) : ArcReplacer :=
  ⟨num_frames, [], [], [], [], [], [], 0, 0⟩

/-- The reverse scan of `ArcReplacer::EvictInternal`: walk the list from its
LRU (back) end and return the first entry found in `alive_map_` with
`evictable_` set, together with its status record. -/
def findVictim (alive : List (Nat × FrameStatus)) : List Nat → Option (Nat × FrameStatus)
  | [] => none
  | f :: rest =>
    match findVictim alive rest with
    | some v => some v
    | none =>
      match alookup alive f with
      | some st => if st.evictable_ then some (f, st) else none
      | none => none

/-- `ArcReplacer::EvictInternal(from_list, ghost_status, to_ghost_list)`.
The C++ caller always passes one of the two trios
`(mru_, MRU_GHOST, mru_ghost_)` / `(mfu_, MFU_GHOST, mfu_ghost_)`, selected
here by `fromMru`. -/
def ArcReplacer.EvictInternal (s : ArcReplacer) (fromMru : Bool) :
    Option Nat × ArcReplacer :=
  match fromMru with
  | true =>
    match findVictim s.alive_map_ s.mru_ with
    | none => (none, s)
    | some (frame_id, frame_status) =>
      (some frame_id,
       { s with
         mru_ := lerase s.mru_ frame_id,
         mru_ghost_ := frame_status.page_id_ :: s.mru_ghost_,
         ghost_map_ := ainsert s.ghost_map_ frame_status.page_id_
           ⟨frame_status.page_id_, frame_id, false, ArcStatus.MRU_GHOST⟩,
         alive_map_ := aerase s.alive_map_ frame_id,
         curr_size_ := sub64 s.curr_size_ 1 })
  | false =>
    match findVictim s.alive_map_ s.mfu_ with
    | none => (none, s)
    | some (frame_id, frame_status) =>
      (some frame_id,
       { s with
         mfu_ := lerase s.mfu_ frame_id,
         mfu_ghost_ := frame_status.page_id_ :: s.mfu_ghost_,
         ghost_map_ := ainsert s.ghost_map_ frame_status.page_id_
           ⟨frame_status.page_id_, frame_id, false, ArcStatus.MFU_GHOST⟩,
         alive_map_ := aerase s.alive_map_ frame_id,
         curr_size_ := sub64 s.curr_size_ 1 })

/-- `ArcReplacer::Evict()`: if `mru_.size() < mru_target_size_` victimize
`mfu_` first, falling back to `mru_`; otherwise victimize `mru_` first,
falling back to `mfu_`. -/
def ArcReplacer.Evict (s : ArcReplacer) : Option Nat × ArcReplacer :=
  if s.mru_.length < s.mru_target_size_ then
    match s.EvictInternal false with
    | (some f, s') => (some f, s')
    | (none, s') => s'.EvictInternal true
  else
    match s.EvictInternal true with
    | (some f, s') => (some f, s')
    | (none, s') => s'.EvictInternal false

/-- `ArcReplacer::RecordAccess(frame_id, page_id, access_type)`; the
`access_type` parameter is unused by the source.  Returns `none` exactly when
the source performs `pop_back()`/`back()` on an empty ghost list (undefined
behaviour). -/
def ArcReplacer.RecordAccess (s : ArcReplacer) (frame_id page_id : Nat) :
    Option ArcReplacer :=
  match alookup s.alive_map_ frame_id with
  | some frame_status =>
    if frame_status.arc_status_ = ArcStatus.MRU then
      some { s with
        mru_ := lerase s.mru_ frame_id,
        mfu_ := frame_id :: s.mfu_,
        alive_map_ := ainsert s.alive_map_ frame_id
          { frame_status with arc_status_ := ArcStatus.MFU } }
    else if frame_status.arc_status_ = ArcStatus.MFU then
      some { s with mfu_ := frame_id :: lerase s.mfu_ frame_id }
    else
      some s
  | none =>
    match alookup s.ghost_map_ page_id with
    | some frame_status =>
      if frame_status.arc_status_ = ArcStatus.MRU_GHOST then
        let delta := if s.mru_ghost_.length ≥ s.mfu_ghost_.length then 1
                     else s.mfu_ghost_.length / s.mru_ghost_.length
        some { s with
          mru_target_size_ := add64 s.mru_target_size_ delta,
          mru_ghost_ := lerase s.mru_ghost_ page_id,
          ghost_map_ := aerase s.ghost_map_ page_id,
          mfu_ := frame_id :: s.mfu_,
          alive_map_ := ainsert s.alive_map_ frame_id
            ⟨page_id, frame_id, true, ArcStatus.MFU⟩,
          curr_size_ := add64 s.curr_size_ 1 }
      else if frame_status.arc_status_ = ArcStatus.MFU_GHOST then
        let delta := if s.mfu_ghost_.length ≥ s.mru_ghost_.length then 1
                     else s.mru_ghost_.length / s.mfu_ghost_.length
        some { s with
          mru_target_size_ := sub64 s.mru_target_size_ delta,
          mfu_ghost_ := lerase s.mfu_ghost_ page_id,
          ghost_map_ := aerase s.ghost_map_ page_id,
          mfu_ := frame_id :: s.mfu_,
          alive_map_ := ainsert s.alive_map_ frame_id
            ⟨page_id, frame_id, true, ArcStatus.MFU⟩,
          curr_size_ := add64 s.curr_size_ 1 }
      else
        some s
    | none =>
      if s.mru_.length + s.mru_ghost_.length = s.replacer_size_ then
        match s.mru_ghost_.getLast? with
        | none => none
        | some last_page_id =>
          some { s with
            mru_ghost_ := s.mru_ghost_.dropLast,
            ghost_map_ := aerase s.ghost_map_ last_page_id,
            mru_ := frame_id :: s.mru_,
            alive_map_ := ainsert s.alive_map_ frame_id
              ⟨page_id, frame_id, true, ArcStatus.MRU⟩,
            curr_size_ := add64 s.curr_size_ 1 }
      else if s.mru_.length + s.mfu_.length + s.mru_ghost_.length + s.mfu_ghost_.length
              = 2 * s.replacer_size_ then
        match s.mfu_ghost_.getLast? with
        | none => none
        | some last_page_id =>
          some { s with
            mfu_ghost_ := s.mfu_ghost_.dropLast,
            ghost_map_ := aerase s.ghost_map_ last_page_id,
            mru_ := frame_id :: s.mru_,
            alive_map_ := ainsert s.alive_map_ frame_id
              ⟨page_id, frame_id, true, ArcStatus.MRU⟩,
            curr_size_ := add64 s.curr_size_ 1 }
      else
        some { s with
          mru_ := frame_id :: s.mru_,
          alive_map_ := ainsert s.alive_map_ frame_id
            ⟨page_id, frame_id, true, ArcStatus.MRU⟩,
          curr_size_ := add64 s.curr_size_ 1 }

/-- `ArcReplacer::SetEvictable(frame_id, set_evictable)`; the `Bool` in the
result is `true` exactly when the source throws `std::runtime_error`, the
state component being the (unchanged, on a throw) object state. -/
def ArcReplacer.SetEvictable (s : ArcReplacer) (frame_id : Nat) (set_evictable : Bool) :
    ArcReplacer × Bool :=
  match alookup s.alive_map_ frame_id with
  | none => (s, true)
  | some frame_status =>
    if frame_status.evictable_ = set_evictable then (s, false)
    else
      ({ s with
         alive_map_ := ainsert s.alive_map_ frame_id
           { frame_status with evictable_ := set_evictable },
         curr_size_ := if set_evictable then add64 s.curr_size_ 1
                       else sub64 s.curr_size_ 1 }, false)

/-- `ArcReplacer::Remove(frame_id)`; the `Bool` flags the
`std::runtime_error` throw on a non-evictable frame. -/
def ArcReplacer.Remove (s : ArcReplacer) (frame_id : Nat) : ArcReplacer × Bool :=
  match alookup s.alive_map_ frame_id with
  | none => (s, false)
  | some frame_status =>
    if frame_status.evictable_ = false then (s, true)
    else
      ({ s with
         mru_ := if frame_status.arc_status_ = ArcStatus.MRU
                 then lerase s.mru_ frame_id else s.mru_,
         mfu_ := if frame_status.arc_status_ = ArcStatus.MFU
                 then lerase s.mfu_ frame_id else s.mfu_,
         alive_map_ := aerase s.alive_map_ frame_id,
         curr_size_ := sub64 s.curr_size_ 1 }, false)

/-- `ArcReplacer::Size()`. -/
def ArcReplacer.Size (s : ArcReplacer) : Nat := s.curr_size_

/-- Evictability of a list entry as the scan of `EvictInternal` judges it:
present in `alive_map_` with `evictable_` set. -/
def evB (alive : List (Nat × FrameStatus)) (f : Nat) : Bool :=
  match alookup alive f with
  | some st => st.evictable_
  | none => false

/-- First evictable entry of a list, scanning from the front. -/
def firstEv (alive : List (Nat × FrameStatus)) : List Nat → Option Nat
  | [] => none
  | f :: t => if evB alive f then some f else firstEv alive t

/-- Modelled from the spec (section 4.3 `evict`): scan a list from its LRU
(back) end and return the first entry with `evictable == true`. -/
def lruScan (alive : List (Nat × FrameStatus)) (l : List Nat) : Option Nat :=
  firstEv alive l.reverse

/-- Whether a list holds at least one evictable entry. -/
def hasEv (alive : List (Nat × FrameStatus)) : List Nat → Bool
  | [] => false
  | f :: t => evB alive f || hasEv alive t

/-- `Option` fallback: the first scan result if any, else the second. -/
def orO (a b : Option Nat) : Option Nat :=
  match a with
  | some x => some x
  | none => b

theorem firstEv_append (alive : List (Nat × FrameStatus)) (a b : List Nat) :
    firstEv alive (a ++ b) = orO (firstEv alive a) (firstEv alive b) := by
  induction a with
  | nil => rfl
  | cons f t ih =>
    by_cases he : evB alive f = true
    · simp only [List.cons_append, firstEv, if_pos he, orO]
    · simp only [List.cons_append, firstEv, if_neg he, orO]
      exact ih


theorem findVictim_fst (alive : List (Nat × FrameStatus)) (l : List Nat) :
    (findVictim alive l).map Prod.fst = lruScan alive l := by
  induction l with
  | nil => rfl
  | cons f rest ih =>
    rw [lruScan, List.reverse_cons, firstEv_append]
    rw [lruScan] at ih
    cases hfv : findVictim alive rest with
    | some v =>
      rw [hfv] at ih
      simp only [findVictim, hfv, ← ih]
      simp [orO]
    | none =>
      rw [hfv] at ih
      simp only [findVictim, hfv, ← ih]
      cases hal : alookup alive f with
      | some st =>
        cases he : st.evictable_
        · simp [orO, firstEv, evB, hal, he]
        · simp [orO, firstEv, evB, hal, he]
      | none => simp [orO, firstEv, evB, hal]

theorem findVictim_none_iff (alive : List (Nat × FrameStatus)) (l : List Nat) :
    findVictim alive l = none ↔ hasEv alive l = false := by
  induction l with
  | nil => simp [findVictim, hasEv]
  | cons f rest ih =>
    cases hfv : findVictim alive rest with
    | some v =>
      simp only [findVictim, hfv, hasEv]
      constructor
      · intro h; exact absurd h (by simp)
      · intro h
        rw [Bool.or_eq_false_iff] at h
        exact absurd (ih.mpr h.2) (by rw [hfv]; simp)
    | none =>
      simp only [findVictim, hfv, hasEv, Bool.or_eq_false_iff]
      have hrest : hasEv alive rest = false := ih.mp hfv
      cases hal : alookup alive f with
      | some st =>
        cases he : st.evictable_
        · simp [evB, hal, he, hrest]
        · simp [evB, hal, he, hrest]
      | none => simp [evB, hal, hrest]

theorem findVictim_sound (alive : List (Nat × FrameStatus)) (l : List Nat)
    (f : Nat) (st : FrameStatus) (h : findVictim alive l = some (f, st)) :
    alookup alive f = some st ∧ st.evictable_ = true := by
  induction l with
  | nil => exact absurd h (by simp [findVictim])
  | cons g rest ih =>
    cases hfv : findVictim alive rest with
    | some v =>
      simp only [findVictim, hfv] at h
      injection h with h1
      exact ih (h1 ▸ hfv)
    | none =>
      cases hal : alookup alive g with
      | some st' =>
        simp only [findVictim, hfv, hal] at h
        cases he : st'.evictable_
        · rw [if_neg (by rw [he]; exact Bool.false_ne_true)] at h
          exact absurd h (by simp)
        · rw [if_pos he] at h
          injection h with h1
          injection h1 with h2 h3
          subst h2; subst h3
          exact ⟨hal, he⟩
      | none =>
        simp only [findVictim, hfv, hal] at h
        exact absurd h (by simp)

/-- Claim C4: `ArcReplacer::Evict` chooses `mru_` (T1) as the primary list
iff `|T1| >= p` (else `mfu_`/T2), scans the primary list from its LRU end for
the first entry with `evictable_ == true`, falls back to the other list when
the primary has no evictable entry, returns `none` iff neither list has an
evictable entry, and leaves the skipped entries of both lists in their
relative order (the post-state lists are sublists of the originals). -/
theorem arc_evict_scan_policy (s : ArcReplacer) :
    (s.mru_target_size_ ≤ s.mru_.length →
      (ArcReplacer.Evict s).1 =
        orO (lruScan s.alive_map_ s.mru_) (lruScan s.alive_map_ s.mfu_)) ∧
    (s.mru_.length < s.mru_target_size_ →
      (ArcReplacer.Evict s).1 =
        orO (lruScan s.alive_map_ s.mfu_) (lruScan s.alive_map_ s.mru_)) ∧
    ((ArcReplacer.Evict s).1 = none ↔
      hasEv s.alive_map_ s.mru_ = false ∧ hasEv s.alive_map_ s.mfu_ = false) ∧
    List.Sublist (ArcReplacer.Evict s).2.mru_ s.mru_ ∧
    List.Sublist (ArcReplacer.Evict s).2.mfu_ s.mfu_ := by
  have hmru := findVictim_fst s.alive_map_ s.mru_
  have hmfu := findVictim_fst s.alive_map_ s.mfu_
  by_cases hlt : s.mru_.length < s.mru_target_size_
  · cases hff : findVictim s.alive_map_ s.mfu_ with
    | some v =>
      obtain ⟨f0, st0⟩ := v
      rw [hff] at hmfu
      simp only [ArcReplacer.Evict, if_pos hlt, ArcReplacer.EvictInternal, hff]
      refine ⟨fun h => absurd h (by omega), fun _ => ?_, ?_, ?_, ?_⟩
      · rw [← hmfu]
        rfl
      · constructor
        · intro h; exact absurd h (by simp)
        · rintro ⟨h1, h2⟩
          exact absurd ((findVictim_none_iff s.alive_map_ s.mfu_).mpr h2)
            (by rw [hff]; simp)
      · exact List.Sublist.refl _
      · exact lerase_sublist _ _
    | none =>
      rw [hff] at hmfu
      cases hfm : findVictim s.alive_map_ s.mru_ with
      | some v =>
        obtain ⟨f1, st1⟩ := v
        rw [hfm] at hmru
        simp only [ArcReplacer.Evict, if_pos hlt, ArcReplacer.EvictInternal, hff, hfm]
        refine ⟨fun h => absurd h (by omega), fun _ => ?_, ?_, ?_, ?_⟩
        · rw [← hmfu, ← hmru]
          rfl
        · constructor
          · intro h; exact absurd h (by simp)
          · rintro ⟨h1, h2⟩
            exact absurd ((findVictim_none_iff s.alive_map_ s.mru_).mpr h1)
              (by rw [hfm]; simp)
        · exact lerase_sublist _ _
        · exact List.Sublist.refl _
      | none =>
        rw [hfm] at hmru
        simp only [ArcReplacer.Evict, if_pos hlt, ArcReplacer.EvictInternal, hff, hfm]
        refine ⟨fun h => absurd h (by omega), fun _ => ?_, ?_, ?_, ?_⟩
        · rw [← hmfu, ← hmru]
          rfl
        · constructor
          · intro _
            exact ⟨(findVictim_none_iff s.alive_map_ s.mru_).mp hfm,
                   (findVictim_none_iff s.alive_map_ s.mfu_).mp hff⟩
          · intro _; trivial
        · exact List.Sublist.refl _
        · exact List.Sublist.refl _
  · cases hfm : findVictim s.alive_map_ s.mru_ with
    | some v =>
      obtain ⟨f1, st1⟩ := v
      rw [hfm] at hmru
      simp only [ArcReplacer.Evict, if_neg hlt, ArcReplacer.EvictInternal, hfm]
      refine ⟨fun _ => ?_, fun h => absurd h hlt, ?_, ?_, ?_⟩
      · rw [← hmru]
        rfl
      · constructor
        · intro h; exact absurd h (by simp)
        · rintro ⟨h1, h2⟩
          exact absurd ((findVictim_none_iff s.alive_map_ s.mru_).mpr h1)
            (by rw [hfm]; simp)
      · exact lerase_sublist _ _
      · exact List.Sublist.refl _
    | none =>
      rw [hfm] at hmru
      cases hff : findVictim s.alive_map_ s.mfu_ with
      | some v =>
        obtain ⟨f0, st0⟩ := v
        rw [hff] at hmfu
        simp only [ArcReplacer.Evict, if_neg hlt, ArcReplacer.EvictInternal, hfm, hff]
        refine ⟨fun _ => ?_, fun h => absurd h hlt, ?_, ?_, ?_⟩
        · rw [← hmru, ← hmfu]
          rfl
        · constructor
          · intro h; exact absurd h (by simp)
          · rintro ⟨h1, h2⟩
            exact absurd ((findVictim_none_iff s.alive_map_ s.mfu_).mpr h2)
              (by rw [hff]; simp)
        · exact List.Sublist.refl _
        · exact lerase_sublist _ _
      | none =>
        rw [hff] at hmfu
        simp only [ArcReplacer.Evict, if_neg hlt, ArcReplacer.EvictInternal, hfm, hff]
        refine ⟨fun _ => ?_, fun h => absurd h hlt, ?_, ?_, ?_⟩
        · rw [← hmru, ← hmfu]
          rfl
        · constructor
          · intro _
            exact ⟨(findVictim_none_iff s.alive_map_ s.mru_).mp hfm,
                   (findVictim_none_iff s.alive_map_ s.mfu_).mp hff⟩
          · intro _; trivial
        · exact List.Sublist.refl _
        · exact List.Sublist.refl _

/-- Concrete two-frame state used to witness C4: T1 = `[0, 1]` (frame 1 at
the LRU end), frame 0 pinned, frame 1 evictable, `p = 0`. -/
def wC4 : ArcReplacer :=
  ⟨2, [0, 1], [], [], [],
   [(0, ⟨10, 0, false, ArcStatus.MRU⟩), (1, ⟨11, 1, true, ArcStatus.MRU⟩)],
   [], 0, 1⟩

/-- Witness for C4: at `wC4` the hypothesis `p <= |T1|` holds and the evict
result agrees with the LRU-first scan of T1 with fallback to T2. -/
theorem arc_evict_scan_policy_witness :
    (ArcReplacer.Evict wC4).1 =
      orO (lruScan wC4.alive_map_ wC4.mru_) (lruScan wC4.alive_map_ wC4.mfu_) :=
  (arc_evict_scan_policy wC4).1 (by decide)

theorem recordAccess_ghost_hit (t : ArcReplacer) (f' pg : Nat) (gst : FrameStatus)
    (ha : alookup t.alive_map_ f' = none)
    (hg : alookup t.ghost_map_ pg = some gst)
    (hst : gst.arc_status_ = ArcStatus.MRU_GHOST ∨ gst.arc_status_ = ArcStatus.MFU_GHOST) :
    ∃ s₂, ArcReplacer.RecordAccess t f' pg = some s₂ ∧
      s₂.mfu_ = f' :: t.mfu_ ∧
      alookup s₂.alive_map_ f' = some ⟨pg, f', true, ArcStatus.MFU⟩ ∧
      s₂.curr_size_ = add64 t.curr_size_ 1 := by
  rcases hst with hst | hst
  · refine ⟨{ t with
        mru_target_size_ := add64 t.mru_target_size_
          (if t.mru_ghost_.length ≥ t.mfu_ghost_.length then 1
           else t.mfu_ghost_.length / t.mru_ghost_.length),
        mru_ghost_ := lerase t.mru_ghost_ pg,
        ghost_map_ := aerase t.ghost_map_ pg,
        mfu_ := f' :: t.mfu_,
        alive_map_ := ainsert t.alive_map_ f' ⟨pg, f', true, ArcStatus.MFU⟩,
        curr_size_ := add64 t.curr_size_ 1 },
      ?_, rfl, alookup_ainsert_self _ _ _, rfl⟩
    simp only [ArcReplacer.RecordAccess, ha, hg, if_pos hst]
  · have hne : ¬ gst.arc_status_ = ArcStatus.MRU_GHOST := by
      rw [hst]; intro hc; exact ArcStatus.noConfusion hc
    refine ⟨{ t with
        mru_target_size_ := sub64 t.mru_target_size_
          (if t.mfu_ghost_.length ≥ t.mru_ghost_.length then 1
           else t.mru_ghost_.length / t.mfu_ghost_.length),
        mfu_ghost_ := lerase t.mfu_ghost_ pg,
        ghost_map_ := aerase t.ghost_map_ pg,
        mfu_ := f' :: t.mfu_,
        alive_map_ := ainsert t.alive_map_ f' ⟨pg, f', true, ArcStatus.MFU⟩,
        curr_size_ := add64 t.curr_size_ 1 },
      ?_, rfl, alookup_ainsert_self _ _ _, rfl⟩
    simp only [ArcReplacer.RecordAccess, ha, hg, if_neg hne, if_pos hst]

/-- Claim C5: if `Evict` returns a frame `f` whose status mapped page `p`,
then the page is pushed at the MRU end of the matching ghost list, and an
immediately following `RecordAccess(f', p)` for any frame `f'` that is not
resident is a ghost hit admitting `f'` at the MRU end of `mfu_` (T2) with
`evictable_ = true` and incrementing `curr_size_`. -/
theorem arc_ghost_roundtrip (s : ArcReplacer) (f f' : Nat) (st : FrameStatus)
    (h1 : (ArcReplacer.Evict s).1 = some f)
    (h2 : alookup s.alive_map_ f = some st)
    (h3 : alookup (ArcReplacer.Evict s).2.alive_map_ f' = none) :
    ((ArcReplacer.Evict s).2.mru_ghost_ = st.page_id_ :: s.mru_ghost_ ∨
     (ArcReplacer.Evict s).2.mfu_ghost_ = st.page_id_ :: s.mfu_ghost_) ∧
    ∃ s₂, ArcReplacer.RecordAccess (ArcReplacer.Evict s).2 f' st.page_id_ = some s₂ ∧
      s₂.mfu_ = f' :: (ArcReplacer.Evict s).2.mfu_ ∧
      alookup s₂.alive_map_ f' = some ⟨st.page_id_, f', true, ArcStatus.MFU⟩ ∧
      s₂.curr_size_ = add64 (ArcReplacer.Evict s).2.curr_size_ 1 := by
  by_cases hlt : s.mru_.length < s.mru_target_size_
  · cases hff : findVictim s.alive_map_ s.mfu_ with
    | some v =>
      obtain ⟨f0, st0⟩ := v
      simp only [ArcReplacer.Evict, if_pos hlt, ArcReplacer.EvictInternal, hff] at h1 h3 ⊢
      injection h1 with h1
      subst h1
      obtain ⟨hal, _⟩ := findVictim_sound _ _ _ _ hff
      rw [h2] at hal
      injection hal with hal
      subst hal
      refine ⟨Or.inr rfl, ?_⟩
      exact recordAccess_ghost_hit _ f' st.page_id_ _ h3
        (alookup_ainsert_self _ _ _) (Or.inr rfl)
    | none =>
      cases hfm : findVictim s.alive_map_ s.mru_ with
      | some v =>
        obtain ⟨f1, st1⟩ := v
        simp only [ArcReplacer.Evict, if_pos hlt, ArcReplacer.EvictInternal, hff, hfm]
          at h1 h3 ⊢
        injection h1 with h1
        subst h1
        obtain ⟨hal, _⟩ := findVictim_sound _ _ _ _ hfm
        rw [h2] at hal
        injection hal with hal
        subst hal
        refine ⟨Or.inl rfl, ?_⟩
        exact recordAccess_ghost_hit _ f' st.page_id_ _ h3
          (alookup_ainsert_self _ _ _) (Or.inl rfl)
      | none =>
        simp only [ArcReplacer.Evict, if_pos hlt, ArcReplacer.EvictInternal, hff, hfm]
          at h1
        exact absurd h1 (by simp)
  · cases hfm : findVictim s.alive_map_ s.mru_ with
    | some v =>
      obtain ⟨f1, st1⟩ := v
      simp only [ArcReplacer.Evict, if_neg hlt, ArcReplacer.EvictInternal, hfm] at h1 h3 ⊢
      injection h1 with h1
      subst h1
      obtain ⟨hal, _⟩ := findVictim_sound _ _ _ _ hfm
      rw [h2] at hal
      injection hal with hal
      subst hal
      refine ⟨Or.inl rfl, ?_⟩
      exact recordAccess_ghost_hit _ f' st.page_id_ _ h3
        (alookup_ainsert_self _ _ _) (Or.inl rfl)
    | none =>
      cases hff : findVictim s.alive_map_ s.mfu_ with
      | some v =>
        obtain ⟨f0, st0⟩ := v
        simp only [ArcReplacer.Evict, if_neg hlt, ArcReplacer.EvictInternal, hfm, hff]
          at h1 h3 ⊢
        injection h1 with h1
        subst h1
        obtain ⟨hal, _⟩ := findVictim_sound _ _ _ _ hff
        rw [h2] at hal
        injection hal with hal
        subst hal
        refine ⟨Or.inr rfl, ?_⟩
        exact recordAccess_ghost_hit _ f' st.page_id_ _ h3
          (alookup_ainsert_self _ _ _) (Or.inr rfl)
      | none =>
        simp only [ArcReplacer.Evict, if_neg hlt, ArcReplacer.EvictInternal, hfm, hff]
          at h1
        exact absurd h1 (by simp)

/-- Concrete one-frame state used to witness C5: T1 = `[0]` holding page 10,
evictable, `p = 0`. -/
def wC5 : ArcReplacer :=
  ⟨1, [0], [], [], [], [(0, ⟨10, 0, true, ArcStatus.MRU⟩)], [], 0, 1⟩

/-- Witness for C5: evicting from `wC5` returns frame 0 with page 10, and
re-accessing page 10 through the fresh frame 1 is a ghost hit admitted at the
MRU end of T2. -/
theorem arc_ghost_roundtrip_witness :
    ∃ s₂, ArcReplacer.RecordAccess (ArcReplacer.Evict wC5).2 1 10 = some s₂ ∧
      s₂.mfu_ = 1 :: (ArcReplacer.Evict wC5).2.mfu_ ∧
      alookup s₂.alive_map_ 1 = some ⟨10, 1, true, ArcStatus.MFU⟩ ∧
      s₂.curr_size_ = add64 (ArcReplacer.Evict wC5).2.curr_size_ 1 :=
  (arc_ghost_roundtrip wC5 0 1 ⟨10, 0, true, ArcStatus.MRU⟩
    (by decide) (by decide) (by decide)).2

/-- Claim C6: a `RecordAccess` whose `frame_id` is resident is decided by
frame identity alone: a T1 resident is moved to the MRU end of T2 with region
`MFU`, a T2 resident is spliced to T2's MRU end in place; `mru_target_size_`,
`curr_size_`, the ghost state and the evictable flag are unchanged, and the
`page_id` argument is ignored (any two arguments give the same result). -/
theorem arc_resident_hit (s : ArcReplacer) (f pg pg' : Nat) (st : FrameStatus)
    (h : alookup s.alive_map_ f = some st) :
    (st.arc_status_ = ArcStatus.MRU →
      ∃ s', ArcReplacer.RecordAccess s f pg = some s' ∧
        s'.mru_ = lerase s.mru_ f ∧ s'.mfu_ = f :: s.mfu_ ∧
        alookup s'.alive_map_ f =
          some ⟨st.page_id_, st.frame_id_, st.evictable_, ArcStatus.MFU⟩) ∧
    (st.arc_status_ = ArcStatus.MFU →
      ∃ s', ArcReplacer.RecordAccess s f pg = some s' ∧
        s'.mfu_ = f :: lerase s.mfu_ f ∧ s'.mru_ = s.mru_ ∧
        alookup s'.alive_map_ f = some st) ∧
    ((st.arc_status_ = ArcStatus.MRU ∨ st.arc_status_ = ArcStatus.MFU) →
      ArcReplacer.RecordAccess s f pg = ArcReplacer.RecordAccess s f pg' ∧
      ∀ s', ArcReplacer.RecordAccess s f pg = some s' →
        s'.mru_target_size_ = s.mru_target_size_ ∧
        s'.curr_size_ = s.curr_size_ ∧
        s'.mru_ghost_ = s.mru_ghost_ ∧
        s'.mfu_ghost_ = s.mfu_ghost_ ∧
        s'.ghost_map_ = s.ghost_map_) := by
  refine ⟨?_, ?_, ?_⟩
  · intro hst
    refine ⟨{ s with
        mru_ := lerase s.mru_ f,
        mfu_ := f :: s.mfu_,
        alive_map_ := ainsert s.alive_map_ f
          { st with arc_status_ := ArcStatus.MFU } },
      ?_, rfl, rfl, alookup_ainsert_self _ _ _⟩
    simp only [ArcReplacer.RecordAccess, h, if_pos hst]
  · intro hst
    have hne : ¬ st.arc_status_ = ArcStatus.MRU := by
      rw [hst]; intro hc; exact ArcStatus.noConfusion hc
    refine ⟨{ s with mfu_ := f :: lerase s.mfu_ f }, ?_, rfl, rfl, h⟩
    simp only [ArcReplacer.RecordAccess, h, if_neg hne, if_pos hst]
  · intro hor
    rcases hor with hst | hst
    · constructor
      · simp only [ArcReplacer.RecordAccess, h, if_pos hst]
      · intro s' hs'
        simp only [ArcReplacer.RecordAccess, h, if_pos hst] at hs'
        injection hs' with hs'
        subst hs'
        exact ⟨rfl, rfl, rfl, rfl, rfl⟩
    · have hne : ¬ st.arc_status_ = ArcStatus.MRU := by
        rw [hst]; intro hc; exact ArcStatus.noConfusion hc
      constructor
      · simp only [ArcReplacer.RecordAccess, h, if_neg hne, if_pos hst]
      · intro s' hs'
        simp only [ArcReplacer.RecordAccess, h, if_neg hne, if_pos hst] at hs'
        injection hs' with hs'
        subst hs'
        exact ⟨rfl, rfl, rfl, rfl, rfl⟩

/-- Concrete state used to witness C6: frame 0 resident in T1, frame 1
resident in T2. -/
def wC6 : ArcReplacer :=
  ⟨2, [0], [1], [], [],
   [(0, ⟨10, 0, true, ArcStatus.MRU⟩), (1, ⟨11, 1, false, ArcStatus.MFU⟩)],
   [], 0, 1⟩

/-- Witness for C6: accessing resident frame 0 (with an unrelated page
argument 99) moves it from T1 to the MRU end of T2. -/
theorem arc_resident_hit_witness :
    ∃ s', ArcReplacer.RecordAccess wC6 0 99 = some s' ∧
      s'.mru_ = lerase wC6.mru_ 0 ∧ s'.mfu_ = 0 :: wC6.mfu_ ∧
      alookup s'.alive_map_ 0 = some ⟨10, 0, true, ArcStatus.MFU⟩ :=
  (arc_resident_hit wC6 0 99 77 ⟨10, 0, true, ArcStatus.MRU⟩ (by decide)).1 rfl

/-- Claim C7: `SetEvictable` is fatal iff the frame is absent from
`alive_map_` (and then changes nothing); it is a no-op when the flag already
has the requested value; otherwise it flips the flag and adjusts
`curr_size_` by exactly one, leaving the lists, the ghost state, the region
and `mru_target_size_` unchanged. -/
theorem arc_set_evictable_spec (s : ArcReplacer) (f : Nat) (v : Bool) :
    ((ArcReplacer.SetEvictable s f v).2 = true ↔ alookup s.alive_map_ f = none) ∧
    (alookup s.alive_map_ f = none → (ArcReplacer.SetEvictable s f v).1 = s) ∧
    (∀ st, alookup s.alive_map_ f = some st → st.evictable_ = v →
      ArcReplacer.SetEvictable s f v = (s, false)) ∧
    (∀ st, alookup s.alive_map_ f = some st → ¬ st.evictable_ = v →
      (ArcReplacer.SetEvictable s f v).2 = false ∧
      alookup (ArcReplacer.SetEvictable s f v).1.alive_map_ f =
        some ⟨st.page_id_, st.frame_id_, v, st.arc_status_⟩ ∧
      (ArcReplacer.SetEvictable s f v).1.mru_ = s.mru_ ∧
      (ArcReplacer.SetEvictable s f v).1.mfu_ = s.mfu_ ∧
      (ArcReplacer.SetEvictable s f v).1.mru_ghost_ = s.mru_ghost_ ∧
      (ArcReplacer.SetEvictable s f v).1.mfu_ghost_ = s.mfu_ghost_ ∧
      (ArcReplacer.SetEvictable s f v).1.ghost_map_ = s.ghost_map_ ∧
      (ArcReplacer.SetEvictable s f v).1.mru_target_size_ = s.mru_target_size_ ∧
      (v = true → s.curr_size_ + 1 < SZ →
        (ArcReplacer.SetEvictable s f v).1.curr_size_ = s.curr_size_ + 1) ∧
      (v = false → 0 < s.curr_size_ → s.curr_size_ < SZ →
        (ArcReplacer.SetEvictable s f v).1.curr_size_ = s.curr_size_ - 1)) := by
  cases hal : alookup s.alive_map_ f with
  | none =>
    have hred : ArcReplacer.SetEvictable s f v = (s, true) := by
      simp only [ArcReplacer.SetEvictable, hal]
    refine ⟨?_, fun _ => by rw [hred], ?_, ?_⟩
    · rw [hred]
      simp
    · intro st hst
      exact absurd hst (by simp)
    · intro st hst
      exact absurd hst (by simp)
  | some st0 =>
    by_cases he : st0.evictable_ = v
    · have hred : ArcReplacer.SetEvictable s f v = (s, false) := by
        simp only [ArcReplacer.SetEvictable, hal, if_pos he]
      refine ⟨?_, ?_, ?_, ?_⟩
      · rw [hred]
        simp
      · intro hn
        exact absurd hn (by simp)
      · intro st hst _
        exact hred
      · intro st hst hne
        injection hst with hst
        subst hst
        exact absurd he hne
    · have h1 : (ArcReplacer.SetEvictable s f v).1 = { s with
          alive_map_ := ainsert s.alive_map_ f { st0 with evictable_ := v },
          curr_size_ := if v = true then add64 s.curr_size_ 1
                        else sub64 s.curr_size_ 1 } := by
        simp only [ArcReplacer.SetEvictable, hal, if_neg he]
      have h2 : (ArcReplacer.SetEvictable s f v).2 = false := by
        simp only [ArcReplacer.SetEvictable, hal, if_neg he]
      refine ⟨?_, ?_, ?_, ?_⟩
      · rw [h2]
        simp
      · intro hn
        exact absurd hn (by simp)
      · intro st hst hev
        injection hst with hst
        subst hst
        exact absurd hev he
      · intro st hst hne
        injection hst with hst
        subst hst
        refine ⟨h2, ?_, by rw [h1], by rw [h1], by rw [h1], by rw [h1],
          by rw [h1], by rw [h1], ?_, ?_⟩
        · rw [h1]
          exact alookup_ainsert_self _ _ _
        · intro hv hsz
          rw [h1]
          show (if v = true then add64 s.curr_size_ 1 else sub64 s.curr_size_ 1) =
            s.curr_size_ + 1
          rw [if_pos hv]
          exact add64_small _ _ hsz
        · intro hv h0 hsz
          rw [h1]
          show (if v = true then add64 s.curr_size_ 1 else sub64 s.curr_size_ 1) =
            s.curr_size_ - 1
          rw [if_neg (by rw [hv]; exact Bool.false_ne_true)]
          exact sub64_small _ _ (by omega) hsz

/-- Concrete state used to witness C7: one resident evictable frame. -/
def wC7 : ArcReplacer :=
  ⟨1, [0], [], [], [], [(0, ⟨10, 0, true, ArcStatus.MRU⟩)], [], 0, 1⟩

/-- Witness for C7: setting frame 0 of `wC7` non-evictable flips its flag and
decrements `curr_size_` from 1 to 0, leaving everything else unchanged. -/
theorem arc_set_evictable_spec_witness :
    (ArcReplacer.SetEvictable wC7 0 false).2 = false ∧
    alookup (ArcReplacer.SetEvictable wC7 0 false).1.alive_map_ 0 =
      some ⟨10, 0, false, ArcStatus.MRU⟩ ∧
    (ArcReplacer.SetEvictable wC7 0 false).1.curr_size_ = wC7.curr_size_ - 1 := by
  have h := (arc_set_evictable_spec wC7 0 false).2.2.2
    ⟨10, 0, true, ArcStatus.MRU⟩ (by decide) (by decide)
  exact ⟨h.1, h.2.1, h.2.2.2.2.2.2.2.2.2 rfl (by decide) (by decide)⟩

/-- Claim C8: `Remove` is a no-op when the frame is absent from `alive_map_`;
it is fatal iff the frame is present and non-evictable, changing nothing in
that case; when present and evictable it removes the frame from its list,
erases it from `alive_map_`, decrements `curr_size_`, and records no ghost
entry. -/
theorem arc_remove_spec (s : ArcReplacer) (f : Nat) :
    ((ArcReplacer.Remove s f).2 = true ↔
      ∃ st, alookup s.alive_map_ f = some st ∧ st.evictable_ = false) ∧
    (alookup s.alive_map_ f = none → ArcReplacer.Remove s f = (s, false)) ∧
    (∀ st, alookup s.alive_map_ f = some st → st.evictable_ = false →
      (ArcReplacer.Remove s f).1 = s) ∧
    (∀ st, alookup s.alive_map_ f = some st → st.evictable_ = true →
      (ArcReplacer.Remove s f).2 = false ∧
      alookup (ArcReplacer.Remove s f).1.alive_map_ f = none ∧
      (st.arc_status_ = ArcStatus.MRU →
        (ArcReplacer.Remove s f).1.mru_ = lerase s.mru_ f ∧
        (ArcReplacer.Remove s f).1.mfu_ = s.mfu_) ∧
      (st.arc_status_ = ArcStatus.MFU →
        (ArcReplacer.Remove s f).1.mfu_ = lerase s.mfu_ f ∧
        (ArcReplacer.Remove s f).1.mru_ = s.mru_) ∧
      (ArcReplacer.Remove s f).1.mru_ghost_ = s.mru_ghost_ ∧
      (ArcReplacer.Remove s f).1.mfu_ghost_ = s.mfu_ghost_ ∧
      (ArcReplacer.Remove s f).1.ghost_map_ = s.ghost_map_ ∧
      (ArcReplacer.Remove s f).1.mru_target_size_ = s.mru_target_size_ ∧
      (0 < s.curr_size_ → s.curr_size_ < SZ →
        (ArcReplacer.Remove s f).1.curr_size_ = s.curr_size_ - 1)) := by
  cases hal : alookup s.alive_map_ f with
  | none =>
    have hred : ArcReplacer.Remove s f = (s, false) := by
      simp only [ArcReplacer.Remove, hal]
    refine ⟨?_, fun _ => hred, ?_, ?_⟩
    · rw [hred]
      constructor
      · intro h; exact absurd h (by simp)
      · rintro ⟨st, hst, _⟩; exact absurd hst (by simp)
    · intro st hst; exact absurd hst (by simp)
    · intro st hst; exact absurd hst (by simp)
  | some st0 =>
    by_cases he : st0.evictable_ = false
    · have hred : ArcReplacer.Remove s f = (s, true) := by
        simp only [ArcReplacer.Remove, hal, if_pos he]
      refine ⟨?_, ?_, ?_, ?_⟩
      · rw [hred]
        constructor
        · intro _; exact ⟨st0, rfl, he⟩
        · intro _; rfl
      · intro hn; exact absurd hn (by simp)
      · intro st hst _
        rw [hred]
      · intro st hst htrue
        injection hst with hst
        subst hst
        rw [he] at htrue
        exact absurd htrue (by simp)
    · have h1 : (ArcReplacer.Remove s f).1 = { s with
          mru_ := if st0.arc_status_ = ArcStatus.MRU then lerase s.mru_ f else s.mru_,
          mfu_ := if st0.arc_status_ = ArcStatus.MFU then lerase s.mfu_ f else s.mfu_,
          alive_map_ := aerase s.alive_map_ f,
          curr_size_ := sub64 s.curr_size_ 1 } := by
        simp only [ArcReplacer.Remove, hal, if_neg he]
      have h2 : (ArcReplacer.Remove s f).2 = false := by
        simp only [ArcReplacer.Remove, hal, if_neg he]
      refine ⟨?_, ?_, ?_, ?_⟩
      · rw [h2]
        constructor
        · intro hh; exact absurd hh (by simp)
        · rintro ⟨st, hst, hsf⟩
          injection hst with hst
          subst hst
          exact absurd hsf he
      · intro hn; exact absurd hn (by simp)
      · intro st hst hf
        injection hst with hst
        subst hst
        exact absurd hf he
      · intro st hst _
        injection hst with hst
        subst hst
        refine ⟨h2, ?_, ?_, ?_, by rw [h1], by rw [h1], by rw [h1], by rw [h1], ?_⟩
        · rw [h1]
          exact alookup_aerase_self _ _
        · intro hmru
          rw [h1]
          constructor
          · show (if st0.arc_status_ = ArcStatus.MRU then lerase s.mru_ f else s.mru_) =
              lerase s.mru_ f
            rw [if_pos hmru]
          · show (if st0.arc_status_ = ArcStatus.MFU then lerase s.mfu_ f else s.mfu_) =
              s.mfu_
            rw [if_neg (by rw [hmru]; intro hc; exact ArcStatus.noConfusion hc)]
        · intro hmfu
          rw [h1]
          constructor
          · show (if st0.arc_status_ = ArcStatus.MFU then lerase s.mfu_ f else s.mfu_) =
              lerase s.mfu_ f
            rw [if_pos hmfu]
          · show (if st0.arc_status_ = ArcStatus.MRU then lerase s.mru_ f else s.mru_) =
              s.mru_
            rw [if_neg (by rw [hmfu]; intro hc; exact ArcStatus.noConfusion hc)]
        · intro h0 hsz
          rw [h1]
          show sub64 s.curr_size_ 1 = s.curr_size_ - 1
          exact sub64_small _ _ (by omega) hsz

/-- Concrete state used to witness C8: one resident evictable frame in T1. -/
def wC8 : ArcReplacer :=
  ⟨1, [0], [], [], [], [(0, ⟨10, 0, true, ArcStatus.MRU⟩)], [], 0, 1⟩

/-- Witness for C8: removing the evictable frame 0 of `wC8` succeeds, erases
it from the alive index and decrements `curr_size_` from 1 to 0. -/
theorem arc_remove_spec_witness :
    (ArcReplacer.Remove wC8 0).2 = false ∧
    alookup (ArcReplacer.Remove wC8 0).1.alive_map_ 0 = none ∧
    (ArcReplacer.Remove wC8 0).1.curr_size_ = wC8.curr_size_ - 1 := by
  have h := (arc_remove_spec wC8 0).2.2.2 ⟨10, 0, true, ArcStatus.MRU⟩
    (by decide) (by decide)
  exact ⟨h.1, h.2.1, h.2.2.2.2.2.2.2.2 (by decide) (by decide)⟩

theorem evict_preserves_p (s : ArcReplacer) :
    (ArcReplacer.Evict s).2.mru_target_size_ = s.mru_target_size_ := by
  by_cases hlt : s.mru_.length < s.mru_target_size_
  · cases hff : findVictim s.alive_map_ s.mfu_ with
    | some v =>
      obtain ⟨f0, st0⟩ := v
      simp only [ArcReplacer.Evict, if_pos hlt, ArcReplacer.EvictInternal, hff]
    | none =>
      cases hfm : findVictim s.alive_map_ s.mru_ with
      | some v =>
        obtain ⟨f1, st1⟩ := v
        simp only [ArcReplacer.Evict, if_pos hlt, ArcReplacer.EvictInternal, hff, hfm]
      | none =>
        simp only [ArcReplacer.Evict, if_pos hlt, ArcReplacer.EvictInternal, hff, hfm]
  · cases hfm : findVictim s.alive_map_ s.mru_ with
    | some v =>
      obtain ⟨f1, st1⟩ := v
      simp only [ArcReplacer.Evict, if_neg hlt, ArcReplacer.EvictInternal, hfm]
    | none =>
      cases hff : findVictim s.alive_map_ s.mfu_ with
      | some v =>
        obtain ⟨f0, st0⟩ := v
        simp only [ArcReplacer.Evict, if_neg hlt, ArcReplacer.EvictInternal, hfm, hff]
      | none =>
        simp only [ArcReplacer.Evict, if_neg hlt, ArcReplacer.EvictInternal, hfm, hff]

/-- Claim C10: the adaptive parameter `mru_target_size_` is changed only by
the two ghost-hit branches of `RecordAccess`: `Evict`, `SetEvictable`,
`Remove` and `Size` leave it unchanged in every state, as does a
`RecordAccess` that is a resident hit or a total miss. -/
theorem arc_target_size_frame (s : ArcReplacer) (f pg : Nat) (v : Bool) :
    (ArcReplacer.Evict s).2.mru_target_size_ = s.mru_target_size_ ∧
    (ArcReplacer.SetEvictable s f v).1.mru_target_size_ = s.mru_target_size_ ∧
    (ArcReplacer.Remove s f).1.mru_target_size_ = s.mru_target_size_ ∧
    ArcReplacer.Size s = s.curr_size_ ∧
    (∀ st, alookup s.alive_map_ f = some st →
      ∀ s', ArcReplacer.RecordAccess s f pg = some s' →
        s'.mru_target_size_ = s.mru_target_size_) ∧
    (alookup s.alive_map_ f = none → alookup s.ghost_map_ pg = none →
      ∀ s', ArcReplacer.RecordAccess s f pg = some s' →
        s'.mru_target_size_ = s.mru_target_size_) := by
  refine ⟨evict_preserves_p s, ?_, ?_, rfl, ?_, ?_⟩
  · cases hal : alookup s.alive_map_ f with
    | none => simp only [ArcReplacer.SetEvictable, hal]
    | some st0 =>
      by_cases he : st0.evictable_ = v
      · simp only [ArcReplacer.SetEvictable, hal, if_pos he]
      · simp only [ArcReplacer.SetEvictable, hal, if_neg he]
  · cases hal : alookup s.alive_map_ f with
    | none => simp only [ArcReplacer.Remove, hal]
    | some st0 =>
      by_cases he : st0.evictable_ = false
      · simp only [ArcReplacer.Remove, hal, if_pos he]
      · simp only [ArcReplacer.Remove, hal, if_neg he]
  · intro st hst s' hs'
    simp only [ArcReplacer.RecordAccess, hst] at hs'
    split at hs'
    · injection hs' with hs'; subst hs'; rfl
    · split at hs'
      · injection hs' with hs'; subst hs'; rfl
      · injection hs' with hs'; subst hs'; rfl
  · intro h1 h2 s' hs'
    simp only [ArcReplacer.RecordAccess, h1, h2] at hs'
    split at hs'
    · split at hs'
      · exact absurd hs' (by simp)
      · injection hs' with hs'; subst hs'; rfl
    · split at hs'
      · split at hs'
        · exact absurd hs' (by simp)
        · injection hs' with hs'; subst hs'; rfl
      · injection hs' with hs'; subst hs'; rfl

/-- Concrete state used to witness C10. -/
def wC10 : ArcReplacer :=
  ⟨1, [0], [], [], [], [(0, ⟨10, 0, true, ArcStatus.MRU⟩)], [], 0, 1⟩

/-- The state after `RecordAccess wC10 0 5` (a resident hit in T1). -/
def wC10r : ArcReplacer :=
  ⟨1, [], [0], [], [], [(0, ⟨10, 0, true, ArcStatus.MFU⟩)], [], 0, 1⟩

/-- Witness for C10: at `wC10`, `Evict` and a resident-hit `RecordAccess`
leave `mru_target_size_` unchanged. -/
theorem arc_target_size_frame_witness :
    (ArcReplacer.Evict wC10).2.mru_target_size_ = wC10.mru_target_size_ ∧
    wC10r.mru_target_size_ = wC10.mru_target_size_ := by
  have h := arc_target_size_frame wC10 0 5 true
  exact ⟨h.1, h.2.2.2.2.1 ⟨10, 0, true, ArcStatus.MRU⟩ (by decide) wC10r (by decide)⟩

/-- Claim C1: the claim states that a ghost hit sets
`p = min(p + delta, N)` (resp. `max(p - delta, 0)`) so that `p` stays in
`[0, N]` and saturates at the bounds.  The source adds the delta without any
clamping: with `N = 1`, the seven-step run below performs two B1 ghost hits
(each with `delta = 1`, the `|B1| >= |B2|` branch of the source's formula)
and drives `mru_target_size_` to `2 > N = 1`, where the claimed update would
saturate at `min(1 + 1, 1) = 1`. -/
theorem arc_target_size_unclamped :
    ((ArcReplacer.RecordAccess (ArcReplacer.init 1) 0 10).bind fun s1 =>
      (ArcReplacer.RecordAccess (ArcReplacer.Evict s1).2 0 10).bind fun s3 =>
      (ArcReplacer.RecordAccess (ArcReplacer.Remove s3 0).1 0 11).bind fun s5 =>
      (ArcReplacer.RecordAccess (ArcReplacer.Evict s5).2 0 11).map fun s7 =>
      s7.mru_target_size_) = some 2 ∧
    (ArcReplacer.init 1).replacer_size_ = 1 := by
  constructor
  · decide
  · decide

/-- Claim C2: the claim states that a miss with `|T1| + |B1| == N` and
`|T1| == N` (so B1 empty) pops the LRU of T1 itself and then admits the new
frame at the MRU end of T1.  The source unconditionally pops the back of B1
in this case: with `N = 1`, after one admission filling T1, a second miss
executes `mru_ghost_.back()`/`pop_back()` on the empty B1 list — undefined
behaviour, modelled as `none` — instead of trimming T1. -/
theorem arc_case4a_empty_ghost_pop :
    ((ArcReplacer.RecordAccess (ArcReplacer.init 1) 0 10).bind fun s1 =>
      ArcReplacer.RecordAccess s1 1 11) = none ∧
    (ArcReplacer.RecordAccess (ArcReplacer.init 1) 0 10).isSome = true := by
  constructor
  · decide
  · decide
